import Mathlib

/-!
Verification of the safety-and-supervision layer of the vi-engine repository.

The Rust sources embedded here are `src/safety.rs` (control block, metrics,
watchdog, safe processor) and `src/asm/direct_asm.rs` (kernel gateway and the
pure-software fallback), together with the character table of `src/util.rs`.

Machine integers are modelled as `Nat` with explicit reduction modulo the
64-bit word size wherever the Rust code can wrap (`fetch_add` on atomics) or
saturate (`saturating_mul`).  Wall-clock reads (`SystemTime::now`,
`Instant::now`) are passed in as explicit `now` parameters.
-/

/-- The number of values of a 64-bit machine word (`u64` / `usize`). -/
def WORD : Nat := 2 ^ 64

/-- Wrapping subtraction on 64-bit words, as Rust release-mode `a - b` on
`u64`.  For `b ≤ a < WORD` it coincides with ordinary subtraction. -/
def wrapSub (a b : Nat) : Nat := (a + WORD - b) % WORD

/-- `AssemblyControl` from `src/safety.rs` lines 31-48: the shared control
block.  Atomic fields become plain `Nat`/`Bool` fields; all operations on the
block are explicit state-passing functions below. -/
structure AssemblyControl where
  cancel_flag : Bool
  timeout_flag : Bool
  panic_flag : Bool
  max_iterations : Nat
  current_iteration : Nat
  heartbeat : Nat
  start_time : Nat
  timeout_ms : Nat
deriving DecidableEq

namespace AssemblyControl

/-- `AssemblyControl::new` (safety.rs lines 53-64). -/
def new : AssemblyControl where
  cancel_flag := false
  timeout_flag := false
  panic_flag := false
  max_iterations := WORD - 1
  current_iteration := 0
  heartbeat := 0
  start_time := 0
  timeout_ms := 5000

/-- `AssemblyControl::reset_for_operation` (safety.rs lines 67-84).
`expected_size.saturating_mul(10).max(1000)` becomes
`max (min (expected_size * 10) (WORD - 1)) 1000`; the `SystemTime` stamp is
the explicit `now` argument (nanoseconds since the epoch). -/
def reset_for_operation (c : AssemblyControl) (expected_size now : Nat) :
    AssemblyControl :=
  { c with
    cancel_flag := false
    timeout_flag := false
    panic_flag := false
    current_iteration := 0
    heartbeat := 0
    max_iterations := max (min (expected_size * 10) (WORD - 1)) 1000
    start_time := now }

/-- `AssemblyControl::was_cancelled` (safety.rs lines 88-92). -/
def was_cancelled (c : AssemblyControl) : Bool :=
  c.cancel_flag || c.timeout_flag || c.panic_flag

/-- `AssemblyControl::timed_out` (safety.rs lines 96-98). -/
def timed_out (c : AssemblyControl) : Bool := c.timeout_flag

/-- `AssemblyControl::cancel_all` (safety.rs lines 101-103). -/
def cancel_all (c : AssemblyControl) : AssemblyControl :=
  { c with cancel_flag := true }

/-- `AssemblyControl::update_heartbeat` (safety.rs lines 106-108); the `u64`
`fetch_add` wraps. -/
def update_heartbeat (c : AssemblyControl) : AssemblyControl :=
  { c with heartbeat := (c.heartbeat + 1) % WORD }

/-- `AssemblyControl::should_continue` (safety.rs lines 112-143), returning
the Bool result together with the mutated control block.  The `usize`
`fetch_add` on `current_iteration` wraps; `now` is the `SystemTime` read in
nanoseconds, and `(now - start)` is the release-mode wrapping subtraction. -/
def should_continue (now : Nat) (c : AssemblyControl) :
    Bool × AssemblyControl :=
  if c.was_cancelled then (false, c)
  else
    let current := c.current_iteration
    let c1 := { c with current_iteration := (current + 1) % WORD }
    if c1.max_iterations ≤ current then
      (false, { c1 with cancel_flag := true })
    else if current % 1024 = 0 then
      if 0 < c1.timeout_ms ∧ c1.timeout_ms < wrapSub now c1.start_time / 1000000 then
        (false, { c1 with timeout_flag := true })
      else (true, c1)
    else (true, c1)

end AssemblyControl

/-- The calls a thread may issue on a control block between two resets, for
the flag-monotonicity claims: `should_continue` (with its clock reading),
`cancel_all`, `update_heartbeat` and the read-only `was_cancelled`. -/
inductive ControlOp where
  | shouldContinueOp (now : Nat)
  | cancelAllOp
  | updateHeartbeatOp
  | wasCancelledOp
deriving DecidableEq

/-- Effect of one `ControlOp` on the control block (the read-only
`was_cancelled` leaves it unchanged). -/
def applyOp (c : AssemblyControl) : ControlOp → AssemblyControl
  | .shouldContinueOp now => (AssemblyControl.should_continue now c).2
  | .cancelAllOp => c.cancel_all
  | .updateHeartbeatOp => c.update_heartbeat
  | .wasCancelledOp => c

/-- Effect of a sequence of `ControlOp`s, first element applied first. -/
def applyOps (c : AssemblyControl) (ops : List ControlOp) : AssemblyControl :=
  ops.foldl applyOp c

/-- State of the control block after `k` successive `should_continue` polls,
each reading the clock value `now`. -/
def pollState (now : Nat) : Nat → AssemblyControl → AssemblyControl
  | 0, c => c
  | k + 1, c => pollState now k (AssemblyControl.should_continue now c).2

/-- Number of `true` results a polling loop observes when it calls
`should_continue` once for each clock reading in `ts`, in order. -/
def pollCountTimes : List Nat → AssemblyControl → Nat
  | [], _ => 0
  | now :: ts, c =>
    (if (AssemblyControl.should_continue now c).1 then 1 else 0) +
      pollCountTimes ts (AssemblyControl.should_continue now c).2

/-- `AssemblyError` from `src/safety.rs` lines 157-170. -/
inductive AssemblyError where
  | Cancelled
  | Timeout
  | IterationLimit
  | Panic
  | InvalidInput
  | ExecutionError (msg : String)
deriving DecidableEq

instance {ε α : Type} [DecidableEq ε] [DecidableEq α] :
    DecidableEq (Except ε α) := fun a b =>
  match a, b with
  | .ok x, .ok y =>
    if h : x = y then .isTrue (by rw [h]) else .isFalse (by simp [h])
  | .error x, .error y =>
    if h : x = y then .isTrue (by rw [h]) else .isFalse (by simp [h])
  | .ok _, .error _ => .isFalse (by simp)
  | .error _, .ok _ => .isFalse (by simp)

/-- `SafetyMetrics` from `src/safety.rs` lines 191-206; the `u64` atomic
counters become `Nat` fields, incremented modulo the word size. -/
structure SafetyMetrics where
  operations_started : Nat
  operations_completed : Nat
  operations_cancelled : Nat
  operations_timed_out : Nat
  total_safety_overhead_ns : Nat
  memory_allocations : Nat
  peak_memory_usage : Nat
deriving DecidableEq

namespace SafetyMetrics

/-- `SafetyMetrics::new` (safety.rs lines 211-213): all counters zero. -/
def new : SafetyMetrics := ⟨0, 0, 0, 0, 0, 0, 0⟩

/-- `SafetyMetrics::record_start` (safety.rs lines 216-218). -/
def record_start (m : SafetyMetrics) : SafetyMetrics :=
  { m with operations_started := (m.operations_started + 1) % WORD }

/-- `SafetyMetrics::record_completion` (safety.rs lines 224-228). -/
def record_completion (m : SafetyMetrics) (overhead_ns : Nat) : SafetyMetrics :=
  { m with
    operations_completed := (m.operations_completed + 1) % WORD
    total_safety_overhead_ns :=
      (m.total_safety_overhead_ns + overhead_ns) % WORD }

/-- `SafetyMetrics::record_cancellation` (safety.rs lines 231-233). -/
def record_cancellation (m : SafetyMetrics) : SafetyMetrics :=
  { m with operations_cancelled := (m.operations_cancelled + 1) % WORD }

/-- `SafetyMetrics::get_success_rate` (safety.rs lines 242-261).  The `f64`
value is modelled as a rational: the explicit clamping of both counters to
`2^53` is taken verbatim from the source; the rounding of the final `f64`
division is not modelled (all inputs used in theorems below make the real
division exact). -/
def get_success_rate (m : SafetyMetrics) : ℚ :=
  if m.operations_started = 0 then 1
  else
    let completed_f64 : ℚ :=
      if 2 ^ 53 < m.operations_completed then ((2 ^ 53 : Nat) : ℚ)
      else (m.operations_completed : ℚ)
    let started_f64 : ℚ :=
      if 2 ^ 53 < m.operations_started then ((2 ^ 53 : Nat) : ℚ)
      else (m.operations_started : ℚ)
    completed_f64 / started_f64

/-- `SafetyMetrics::get_average_overhead_ns` (safety.rs lines 265-272);
`u64` division is `Nat` division. -/
def get_average_overhead_ns (m : SafetyMetrics) : Nat :=
  if m.operations_completed = 0 then 0
  else m.total_safety_overhead_ns / m.operations_completed

end SafetyMetrics

/-- `char::from_u32` on code points: valid exactly for values below
`0x110000` that are not UTF-16 surrogates (`0xD800..=0xDFFF`).  Used by
`process_chars_safe` (safety.rs line 654), `process_char_safe`
(direct_asm.rs line 208) and the software fallback (direct_asm.rs line
446). -/
def char_from_u32 (u : Nat) : Option Nat :=
  if 0x110000 ≤ u ∨ (0xD800 ≤ u ∧ u ≤ 0xDFFF) then none else some u

/-- `clean_char` from `src/util.rs` lines 19-64, over code points: strips
Vietnamese tone marks and modifications, passing every unmapped code point
through unchanged. -/
def clean_char (ch : Nat) : Nat :=
  match ch with
  | 0x61 | 0xE0 | 0x1EA3 | 0xE3 | 0xE1 | 0x1EA1 | 0x103 | 0x1EB1 | 0x1EB3
  | 0x1EB5 | 0x1EAF | 0x1EB7 | 0xE2 | 0x1EA7 | 0x1EA9 | 0x1EAB | 0x1EA5
  | 0x1EAD => 0x61
  | 0x41 | 0xC0 | 0x1EA2 | 0xC3 | 0xC1 | 0x1EA0 | 0x102 | 0x1EB0 | 0x1EB2
  | 0x1EB4 | 0x1EAE | 0x1EB6 | 0xC2 | 0x1EA6 | 0x1EA8 | 0x1EAA | 0x1EA4
  | 0x1EAC => 0x41
  | 0x64 | 0x111 => 0x64
  | 0x44 | 0x110 => 0x44
  | 0x65 | 0xE8 | 0x1EBB | 0x1EBD | 0xE9 | 0x1EB9 | 0xEA | 0x1EC1 | 0x1EC3
  | 0x1EC5 | 0x1EBF | 0x1EC7 => 0x65
  | 0x45 | 0xC8 | 0x1EBA | 0x1EBC | 0xC9 | 0x1EB8 | 0xCA | 0x1EC0 | 0x1EC2
  | 0x1EC4 | 0x1EBE | 0x1EC6 => 0x45
  | 0x69 | 0xEC | 0x1EC9 | 0x129 | 0xED | 0x1ECB => 0x69
  | 0x49 | 0xCC | 0x1EC8 | 0x128 | 0xCD | 0x1ECA => 0x49
  | 0x6F | 0xF2 | 0x1ECF | 0xF5 | 0xF3 | 0x1ECD | 0xF4 | 0x1ED3 | 0x1ED5
  | 0x1ED7 | 0x1ED1 | 0x1ED9 | 0x1A1 | 0x1EDD | 0x1EDF | 0x1EE1 | 0x1EDB
  | 0x1EE3 => 0x6F
  | 0x4F | 0xD2 | 0x1ECE | 0xD5 | 0xD3 | 0x1ECC | 0xD4 | 0x1ED2 | 0x1ED4
  | 0x1ED6 | 0x1ED0 | 0x1ED8 | 0x1A0 | 0x1EDC | 0x1EDE | 0x1EE0 | 0x1EDA
  | 0x1EE2 => 0x4F
  | 0x75 | 0xF9 | 0x1EE7 | 0x169 | 0xFA | 0x1EE5 | 0x1B0 | 0x1EEB | 0x1EED
  | 0x1EEF | 0x1EE9 | 0x1EF1 => 0x75
  | 0x55 | 0xD9 | 0x1EE6 | 0x168 | 0xDA | 0x1EE4 | 0x1AF | 0x1EEA | 0x1EEC
  | 0x1EEE | 0x1EE8 | 0x1EF0 => 0x55
  | 0x79 | 0x1EF3 | 0x1EF7 | 0x1EF9 | 0xFD | 0x1EF5 => 0x79
  | 0x59 | 0x1EF2 | 0x1EF6 | 0x1EF8 | 0xDD | 0x1EF4 => 0x59
  | _ => ch

/-- `AssemblyInterface::process_chars_rust_fallback` (direct_asm.rs lines
440-451): a plain element-wise loop over the whole input with no chunking
and no control-block access; invalid input code points are replaced by the
`U+FFFD` sentinel before the table lookup; always returns `Ok(input.len())`
together with the fully overwritten output buffer. -/
def process_chars_rust_fallback (input : List Nat) :
    Except AssemblyError (Nat × List Nat) :=
  Except.ok
    (input.length, input.map fun u => clean_char ((char_from_u32 u).getD 0xFFFD))

/-- The `RustFallback` arm of `AssemblyInterface::process_chars_bulk_safe`
(direct_asm.rs lines 264-285 and 429): length check, empty check, size
limit, then `control.reset_for_operation(input.len())` followed by the
fallback, which never touches the control block. -/
def process_chars_bulk_safe_fallback (input output : List Nat)
    (c : AssemblyControl) (now : Nat) :
    Except AssemblyError (Nat × List Nat) × AssemblyControl :=
  if input.length ≠ output.length then (Except.error AssemblyError.InvalidInput, c)
  else if input.isEmpty then (Except.ok (0, output), c)
  else if 100000000 < input.length then (Except.error AssemblyError.InvalidInput, c)
  else (process_chars_rust_fallback input, c.reset_for_operation input.length now)

/-- The result of the internal kernel-gateway call made by
`process_chars_safe` (safety.rs lines 639 and 664-674): its `Result`
together with the contents of the output buffer on return, and the value of
the shared control block when the call returns (the gateway resets the block
and the kernel, the watchdog, or any other thread may have mutated it). -/
structure GatewayReturn where
  result : Except AssemblyError (Nat × List Nat)
  post : AssemblyControl
deriving DecidableEq

/-- `SafeAssemblyProcessor::process_chars_safe` (safety.rs lines 625-661)
over code points, with the kernel-gateway call abstracted as `gw` and the
measured completion overhead as `overhead_ns`.  Returns the result together
with the control block and the metrics after the call. -/
def process_chars_safe (input : List Nat) (c : AssemblyControl)
    (m : SafetyMetrics) (gw : GatewayReturn) (overhead_ns : Nat) :
    Except AssemblyError (List Nat) × AssemblyControl × SafetyMetrics :=
  if input.isEmpty then (Except.ok [], c, m)
  else
    let m1 := m.record_start
    match gw.result with
    | Except.error e => (Except.error e, gw.post, m1)
    | Except.ok (processed, output) =>
      if gw.post.was_cancelled then
        let m2 := m1.record_cancellation
        if gw.post.timed_out then (Except.error AssemblyError.Timeout, gw.post, m2)
        else (Except.error AssemblyError.Cancelled, gw.post, m2)
      else
        (Except.ok ((output.take processed).filterMap char_from_u32), gw.post,
          m1.record_completion overhead_ns)

/-- The output-validation step of the single-character native paths of
`AssemblyInterface::process_char_safe` (direct_asm.rs lines 208-212,
229-233, 250-254): `char::from_u32` on the value the native call returned,
with an `ExecutionError` carrying the formatted message on failure. -/
def validate_native_char (result_u32 : Nat) : Except AssemblyError Nat :=
  match char_from_u32 result_u32 with
  | some c => Except.ok c
  | none =>
    Except.error (AssemblyError.ExecutionError
      ("Assembly returned invalid Unicode: 0x" ++
        String.mk ((Nat.toDigits 16 result_u32).map Char.toUpper)))

/-- `WatchdogConfig` from `src/safety.rs` lines 313-320. -/
structure WatchdogConfig where
  check_interval_ms : Nat
  stall_timeout_ms : Nat
  enabled : Bool
deriving DecidableEq

/-- The locals of the watchdog thread (safety.rs lines 378-379):
`last_heartbeat` and `last_heartbeat_time` (an `Instant`, modelled in
milliseconds). -/
structure WatchTrack where
  last_heartbeat : Nat
  last_heartbeat_time : Nat
deriving DecidableEq

/-- One wake of the watchdog loop body
(`AssemblyWatchdog::spawn_watchdog_thread`, safety.rs lines 381-439), after
the sleep: `now_ns` is the `SystemTime` read used for the timeout backup
check, `now_ms` the `Instant` read used for stall tracking
(`Instant` differences saturate at zero, as does `Nat` subtraction). -/
def watchdog_step (cfg : WatchdogConfig) (c : AssemblyControl) (w : WatchTrack)
    (now_ns now_ms : Nat) : AssemblyControl × WatchTrack :=
  if c.start_time = 0 then (c, ⟨0, now_ms⟩)
  else if 0 < c.timeout_ms ∧ c.timeout_ms < wrapSub now_ns c.start_time / 1000000 then
    ({ c with timeout_flag := true, cancel_flag := true }, w)
  else
    let current := c.heartbeat
    if current = w.last_heartbeat then
      if 0 < w.last_heartbeat ∧ cfg.stall_timeout_ms < now_ms - w.last_heartbeat_time then
        ({ c with cancel_flag := true }, ⟨w.last_heartbeat, now_ms⟩)
      else if w.last_heartbeat = 0 then (c, ⟨current, now_ms⟩)
      else (c, w)
    else (c, ⟨current, now_ms⟩)

/-- The watchdog loop run over a list of wake instants, each a
`(now_ns, now_ms)` pair, first wake first.  The control block is otherwise
untouched between wakes: this is the frozen-heartbeat scenario of the stall
claims, in which the supervised operation makes no progress. -/
def watchdog_run (cfg : WatchdogConfig) :
    List (Nat × Nat) → AssemblyControl × WatchTrack → AssemblyControl × WatchTrack
  | [], s => s
  | t :: ts, s => watchdog_run cfg ts (watchdog_step cfg s.1 s.2 t.1 t.2)

/-! ## Basic lemmas about the control block -/

/-- A control block that already reports cancellation is left untouched by
`should_continue`, which returns `false` at once. -/
theorem should_continue_of_cancelled {c : AssemblyControl}
    (h : c.was_cancelled = true) (now : Nat) :
    AssemblyControl.should_continue now c = (false, c) := by
  simp [AssemblyControl.should_continue, h]

/-- No `ControlOp` ever clears the cancel, timeout or panic flag. -/
theorem applyOp_flags_mono (c : AssemblyControl) (op : ControlOp) :
    (c.cancel_flag = true → (applyOp c op).cancel_flag = true) ∧
    (c.timeout_flag = true → (applyOp c op).timeout_flag = true) ∧
    (c.panic_flag = true → (applyOp c op).panic_flag = true) := by
  cases op with
  | shouldContinueOp now =>
    by_cases h : c.was_cancelled = true
    · simp [applyOp, should_continue_of_cancelled h]
    · refine ⟨fun h1 => absurd ?_ h, fun h2 => absurd ?_ h, fun h3 => absurd ?_ h⟩
      · simp [AssemblyControl.was_cancelled, h1]
      · simp [AssemblyControl.was_cancelled, h2]
      · simp [AssemblyControl.was_cancelled, h3]
  | cancelAllOp => simp [applyOp, AssemblyControl.cancel_all]
  | updateHeartbeatOp => simp [applyOp, AssemblyControl.update_heartbeat]
  | wasCancelledOp => simp [applyOp]

/-- The cancel flag survives any sequence of `ControlOp`s. -/
theorem applyOps_cancel_mono (ops : List ControlOp) (c : AssemblyControl)
    (h : c.cancel_flag = true) : (applyOps c ops).cancel_flag = true := by
  induction ops generalizing c with
  | nil => simpa [applyOps] using h
  | cons op ops ih =>
    have hstep := (applyOp_flags_mono c op).1 h
    simpa [applyOps, List.foldl_cons] using ih (applyOp c op) hstep

/-- C1: once the cancel flag is set on a control block, every subsequent
`should_continue` call returns `false`, and no operation among
`should_continue` / `cancel_all` / `update_heartbeat` / `was_cancelled` ever
clears the cancel, timeout or panic flag: along every sequence of such calls
starting from a cancelled state, cancel stays `true` and `should_continue`
keeps returning `false` (only `reset_for_operation` clears flags). -/
theorem cancel_is_latched (c : AssemblyControl) (ops : List ControlOp)
    (h : c.cancel_flag = true) :
    (applyOps c ops).cancel_flag = true ∧
    (∀ now, (AssemblyControl.should_continue now (applyOps c ops)).1 = false) ∧
    (∀ (x : AssemblyControl) (op : ControlOp),
      (x.cancel_flag = true → (applyOp x op).cancel_flag = true) ∧
      (x.timeout_flag = true → (applyOp x op).timeout_flag = true) ∧
      (x.panic_flag = true → (applyOp x op).panic_flag = true)) := by
  have hc := applyOps_cancel_mono ops c h
  refine ⟨hc, fun now => ?_, fun x op => applyOp_flags_mono x op⟩
  have hwc : (applyOps c ops).was_cancelled = true := by
    simp [AssemblyControl.was_cancelled, hc]
  simp [should_continue_of_cancelled hwc]

/-- Witness for C1 at a concrete cancelled block and a concrete sequence of
heartbeat, poll and cancel calls. -/
theorem cancel_is_latched_witness :
    (applyOps { AssemblyControl.new with cancel_flag := true }
      [ControlOp.updateHeartbeatOp, ControlOp.shouldContinueOp 7,
        ControlOp.cancelAllOp, ControlOp.wasCancelledOp]).cancel_flag = true :=
  (cancel_is_latched { AssemblyControl.new with cancel_flag := true }
    [ControlOp.updateHeartbeatOp, ControlOp.shouldContinueOp 7,
      ControlOp.cancelAllOp, ControlOp.wasCancelledOp] rfl).1

/-- C7: for every prior control-block state, `reset_for_operation` clears
the cancel, timeout and panic flags, zeroes `current_iteration` and
`heartbeat`, and `was_cancelled` returns `false` immediately after. -/
theorem reset_clears_all_state (c : AssemblyControl) (n now : Nat) :
    (c.reset_for_operation n now).cancel_flag = false ∧
    (c.reset_for_operation n now).timeout_flag = false ∧
    (c.reset_for_operation n now).panic_flag = false ∧
    (c.reset_for_operation n now).current_iteration = 0 ∧
    (c.reset_for_operation n now).heartbeat = 0 ∧
    (c.reset_for_operation n now).was_cancelled = false := by
  simp [AssemblyControl.reset_for_operation, AssemblyControl.was_cancelled]

/-- C9: on the empty input, `process_chars_safe` returns `Ok` with the empty
result and leaves both the control block and the metrics exactly as they
were. -/
theorem process_chars_safe_empty (c : AssemblyControl) (m : SafetyMetrics)
    (gw : GatewayReturn) (overhead_ns : Nat) :
    process_chars_safe [] c m gw overhead_ns = (Except.ok [], c, m) := rfl

/-- Counterexample for C8: with `operations_started = 2^54` and
`operations_completed = 2^53`, the source clamps both counters to `2^53`,
so `get_success_rate` returns `1` although `completed / started = 1/2`
(all values involved are exactly representable in `f64`, so the rational
model agrees with the real computation here). -/
theorem success_rate_clamped_counterexample :
    SafetyMetrics.get_success_rate
        { SafetyMetrics.new with
          operations_started := 2 ^ 54, operations_completed := 2 ^ 53 } = 1 ∧
    ((2 ^ 53 : ℚ) / (2 ^ 54 : ℚ) = 1 / 2) ∧ ((1 : ℚ) ≠ 1 / 2) := by
  refine ⟨?_, by norm_num, by norm_num⟩
  norm_num [SafetyMetrics.get_success_rate, SafetyMetrics.new]

/-- C8 (amended): `get_success_rate` returns `1` when no operation has
started, and otherwise the quotient of the two counters after each has been
clamped to `2^53`; in particular it equals `completed / started` whenever
both counters are at most `2^53`.  `get_average_overhead_ns` returns `0`
when `operations_completed = 0` and integer `total / completed`
otherwise, exactly as claimed. -/
theorem metrics_arithmetic_amended :
    (∀ m : SafetyMetrics, m.operations_completed ≤ 2 ^ 53 →
      m.operations_started ≤ 2 ^ 53 →
      m.get_success_rate = if m.operations_started = 0 then 1
        else (m.operations_completed : ℚ) / (m.operations_started : ℚ)) ∧
    (∀ m : SafetyMetrics, m.get_average_overhead_ns =
      if m.operations_completed = 0 then 0
      else m.total_safety_overhead_ns / m.operations_completed) := by
  constructor
  · intro m h1 h2
    simp only [SafetyMetrics.get_success_rate]
    split
    · rfl
    · rw [if_neg (Nat.not_lt.mpr h1), if_neg (Nat.not_lt.mpr h2)]
  · intro m
    rfl

/-- Witness for C8 (amended): one completion out of two started operations
has success rate one half. -/
theorem metrics_arithmetic_amended_witness :
    SafetyMetrics.get_success_rate
        { SafetyMetrics.new with
          operations_started := 2, operations_completed := 1 } = 1 / 2 := by
  have h := metrics_arithmetic_amended.1
    { SafetyMetrics.new with operations_started := 2, operations_completed := 1 }
    (by norm_num) (by norm_num)
  norm_num at h
  simpa using h

/-- Counterexample for C6: a native bulk result that writes the invalid
code point `0xD800` (a surrogate) is not surfaced as `ExecutionError`:
`process_chars_safe` silently drops it and returns `Ok` with the value
removed. -/
theorem native_invalid_output_silently_dropped :
    (process_chars_safe [0x41] AssemblyControl.new SafetyMetrics.new
        ⟨Except.ok (1, [0xD800]), AssemblyControl.new⟩ 0).1 =
      Except.ok [] := rfl

/-- On any well-formed non-empty input, the `RustFallback` bulk path resets
the control block and processes every element unconditionally. -/
theorem bulk_fallback_spec (input output : List Nat)
    (c : AssemblyControl) (now : Nat) (hlen : input.length = output.length)
    (hne : input ≠ []) (hsize : input.length ≤ 100000000) :
    process_chars_bulk_safe_fallback input output c now =
      (Except.ok (input.length,
        input.map fun u => clean_char ((char_from_u32 u).getD 0xFFFD)),
       c.reset_for_operation input.length now) := by
  have h1 : ¬ (input.length ≠ output.length) := by simp [hlen]
  have h2 : input.isEmpty = false := by
    simpa [List.isEmpty_iff] using hne
  have h3 : ¬ (100000000 < input.length) := by omega
  simp [process_chars_bulk_safe_fallback, h1, h2, h3,
    process_chars_rust_fallback]

set_option maxRecDepth 10000 in
/-- Counterexample for C3: with the cancel flag already set, the
`RustFallback` path still processes all 1025 input elements (more than one
1024-element chunk) — it performs no chunked `should_continue` checks, and
`process_chars_bulk_safe` even clears the pre-set cancel flag by resetting
the control block on entry. -/
theorem fallback_ignores_cancel_counterexample :
    (process_chars_bulk_safe_fallback (List.replicate 1025 0x61)
        (List.replicate 1025 0)
        { AssemblyControl.new with cancel_flag := true } 0).1 =
      Except.ok (1025, List.replicate 1025 0x61) ∧
    1024 < 1025 ∧
    (process_chars_bulk_safe_fallback (List.replicate 1025 0x61)
        (List.replicate 1025 0)
        { AssemblyControl.new with cancel_flag := true } 0).2.cancel_flag =
      false := by
  have h := bulk_fallback_spec (List.replicate 1025 0x61)
    (List.replicate 1025 0) { AssemblyControl.new with cancel_flag := true } 0
    (by simp) (by simp) (by simp)
  rw [h]
  refine ⟨?_, by norm_num, ?_⟩
  · simp only [List.map_replicate, List.length_replicate]
    rfl
  · simp [AssemblyControl.reset_for_operation]

/-- C3 (amended): the `RustFallback` path of `process_chars_bulk_safe` does
no chunking and never consults `should_continue`; after the entry checks it
resets the control block (clearing any pre-set cancel flag) and processes
every element of the input unconditionally, returning `input.len()`.  A
pre-set cancel flag therefore does not limit the fallback to one chunk. -/
theorem fallback_processes_everything (input output : List Nat)
    (c : AssemblyControl) (now : Nat) (hlen : input.length = output.length)
    (hne : input ≠ []) (hsize : input.length ≤ 100000000) :
    process_chars_bulk_safe_fallback input output c now =
      (Except.ok (input.length,
        input.map fun u => clean_char ((char_from_u32 u).getD 0xFFFD)),
       c.reset_for_operation input.length now) :=
  bulk_fallback_spec input output c now hlen hne hsize

/-- Witness for C3 (amended) at a one-element input and a cancelled control
block. -/
theorem fallback_processes_everything_witness :
    process_chars_bulk_safe_fallback [0x61] [0]
        { AssemblyControl.new with cancel_flag := true } 0 =
      (Except.ok (1, [0x61]),
        AssemblyControl.reset_for_operation
          { AssemblyControl.new with cancel_flag := true } 1 0) := by
  have h := fallback_processes_everything [0x61] [0]
    { AssemblyControl.new with cancel_flag := true } 0 rfl (by simp)
    (by norm_num)
  simpa using h

/-- C5: for every non-empty input, when the gateway call returned a count
and the control block reports `was_cancelled` afterwards,
`process_chars_safe` returns `Err(Timeout)` if `timed_out` and
`Err(Cancelled)` otherwise, regardless of the returned count; and it
returns `Ok` only when `was_cancelled` is `false` after the call. -/
theorem cancelled_flags_override_gateway (input : List Nat)
    (c : AssemblyControl) (m : SafetyMetrics) (gw : GatewayReturn)
    (overhead_ns : Nat) (hne : input ≠ []) :
    (∀ processed output, gw.result = Except.ok (processed, output) →
      gw.post.was_cancelled = true →
      (process_chars_safe input c m gw overhead_ns).1 =
        Except.error (if gw.post.timed_out then AssemblyError.Timeout
          else AssemblyError.Cancelled)) ∧
    (∀ r, (process_chars_safe input c m gw overhead_ns).1 = Except.ok r →
      gw.post.was_cancelled = false) := by
  have hemp : input.isEmpty = false := by
    simpa [List.isEmpty_iff] using hne
  constructor
  · intro p out hres hcanc
    simp only [process_chars_safe, hemp, Bool.false_eq_true, if_false, hres,
      hcanc, if_true]
    split <;> simp
  · intro r hr
    by_contra hcanc
    rw [Bool.not_eq_false] at hcanc
    rcases hgw : gw.result with e | po
    · simp [process_chars_safe, hemp, hgw] at hr
    · obtain ⟨p, out⟩ := po
      simp only [process_chars_safe, hemp, Bool.false_eq_true, if_false,
        hgw, hcanc, if_true] at hr
      split at hr <;> simp at hr

/-- Witness for C5: a gateway that returned a count while the timeout flag
was set is classified as `Timeout`. -/
theorem cancelled_flags_override_gateway_witness :
    (process_chars_safe [0x61] AssemblyControl.new SafetyMetrics.new
        ⟨Except.ok (1, [0x61]),
          { AssemblyControl.new with timeout_flag := true }⟩ 0).1 =
      Except.error AssemblyError.Timeout := by
  have h := (cancelled_flags_override_gateway [0x61] AssemblyControl.new
    SafetyMetrics.new
    ⟨Except.ok (1, [0x61]), { AssemblyControl.new with timeout_flag := true }⟩
    0 (by simp)).1 1 [0x61] rfl rfl
  simpa using h

/-- C6 (amended): per-code-point revalidation that surfaces
`ExecutionError` exists only on the single-character interface, whose
native paths validate each returned value with `char::from_u32`; in the
bulk path a successful native result is not individually revalidated —
`process_chars_safe` silently filters invalid code points out of the `Ok`
result — and the `U+FFFD` sentinel is applied only to invalid input values
inside the software fallback. -/
theorem output_validation_amended :
    (∀ u : Nat, char_from_u32 u = none →
      validate_native_char u =
        Except.error (AssemblyError.ExecutionError
          ("Assembly returned invalid Unicode: 0x" ++
            String.mk ((Nat.toDigits 16 u).map Char.toUpper)))) ∧
    (∀ (input : List Nat) (c : AssemblyControl) (m : SafetyMetrics)
        (gw : GatewayReturn) (overhead_ns processed : Nat)
        (output : List Nat), input ≠ [] →
      gw.result = Except.ok (processed, output) →
      gw.post.was_cancelled = false →
      (process_chars_safe input c m gw overhead_ns).1 =
        Except.ok ((output.take processed).filterMap char_from_u32)) ∧
    (∀ u : Nat, char_from_u32 u = none →
      clean_char ((char_from_u32 u).getD 0xFFFD) = 0xFFFD) := by
  refine ⟨fun u hu => ?_, fun input c m gw o p out hne hres hok => ?_,
    fun u hu => ?_⟩
  · simp [validate_native_char, hu]
  · have hemp : input.isEmpty = false := by
      simpa [List.isEmpty_iff] using hne
    simp [process_chars_safe, hemp, hres, hok]
  · rw [hu]
    rfl

/-- Witness for C6 (amended): the surrogate `0xD800` returned by a native
single-character call is rejected as `ExecutionError`. -/
theorem output_validation_amended_witness :
    validate_native_char 0xD800 =
      Except.error (AssemblyError.ExecutionError
        ("Assembly returned invalid Unicode: 0x" ++
          String.mk ((Nat.toDigits 16 0xD800).map Char.toUpper))) :=
  output_validation_amended.1 0xD800 (by decide)

/-- C10: whenever `process_chars_safe` returns `Ok`, the result has at most
as many elements as the input; code points failing the `char::from_u32`
revalidation are dropped rather than preserved, so an `Ok` result can be
strictly shorter than the input (shown at a concrete native result writing
a surrogate). -/
theorem result_never_longer_than_input :
    (∀ (input : List Nat) (c : AssemblyControl) (m : SafetyMetrics)
        (gw : GatewayReturn) (overhead_ns processed : Nat)
        (output r : List Nat),
      gw.result = Except.ok (processed, output) →
      output.length = input.length →
      (process_chars_safe input c m gw overhead_ns).1 = Except.ok r →
      r.length ≤ input.length) ∧
    ((process_chars_safe [0x61, 0x62] AssemblyControl.new SafetyMetrics.new
        ⟨Except.ok (2, [0xD800, 0x62]), AssemblyControl.new⟩ 0).1 =
      Except.ok [0x62] ∧
      ([0x62] : List Nat).length < ([0x61, 0x62] : List Nat).length) := by
  constructor
  · intro input c m gw o p out r hres hlen hr
    by_cases hemp : input.isEmpty
    · simp only [process_chars_safe, hemp, if_true, Except.ok.injEq] at hr
      rw [← hr]
      simp
    · rw [Bool.not_eq_true] at hemp
      simp only [process_chars_safe, hemp, Bool.false_eq_true, if_false,
        hres] at hr
      by_cases hc : gw.post.was_cancelled = true
      · rw [if_pos hc] at hr
        split at hr <;> simp at hr
      · rw [Bool.not_eq_true] at hc
        rw [hc] at hr
        simp only [Bool.false_eq_true, if_false, Except.ok.injEq] at hr
        calc r.length = ((out.take p).filterMap char_from_u32).length := by
              rw [hr]
          _ ≤ (out.take p).length := List.length_filterMap_le _ _
          _ ≤ out.length := by
              rw [List.length_take]
              omega
          _ = input.length := hlen
  · exact ⟨rfl, by norm_num⟩

/-- Witness for C10 at a concrete native result containing one invalid
code point. -/
theorem result_never_longer_than_input_witness :
    ([0x62] : List Nat).length ≤ ([0x61, 0x62] : List Nat).length :=
  result_never_longer_than_input.1 [0x61, 0x62] AssemblyControl.new
    SafetyMetrics.new ⟨Except.ok (2, [0xD800, 0x62]), AssemblyControl.new⟩
    0 2 [0xD800, 0x62] [0x62] rfl rfl rfl

/-! ## Lemmas for the iteration-limit safety net -/

theorem wrapSub_self (a : Nat) : wrapSub a a = 0 := by
  have h : a + WORD - a = WORD := by omega
  rw [wrapSub, h, Nat.mod_self]

theorem reset_bound_le (n : Nat) :
    max (min (n * 10) (WORD - 1)) 1000 ≤ WORD - 1 := by
  have h1000 : (1000 : Nat) ≤ WORD - 1 := by norm_num [WORD]
  exact max_le (min_le_right _ _) h1000

theorem should_continue_running (c : AssemblyControl) (now : Nat)
    (hcf : c.cancel_flag = false) (htf : c.timeout_flag = false)
    (hpf : c.panic_flag = false) (hst : c.start_time = now)
    (hlt : c.current_iteration < c.max_iterations)
    (hW : c.max_iterations ≤ WORD - 1) :
    AssemblyControl.should_continue now c =
      (true, { c with current_iteration := c.current_iteration + 1 }) := by
  have hwc : c.was_cancelled = false := by
    simp [AssemblyControl.was_cancelled, hcf, htf, hpf]
  have hWpos : 0 < WORD := by norm_num [WORD]
  have hmod : (c.current_iteration + 1) % WORD = c.current_iteration + 1 :=
    Nat.mod_eq_of_lt (by omega)
  have hto : ¬ (0 < c.timeout_ms ∧
      c.timeout_ms < wrapSub now c.start_time / 1000000) := by
    rw [hst, wrapSub_self]
    simp
  simp only [AssemblyControl.should_continue, hwc, Bool.false_eq_true,
    if_false, hmod]
  rw [if_neg (by simp; omega)]
  split <;> rfl

theorem should_continue_at_limit (c : AssemblyControl) (now : Nat)
    (hwc : c.was_cancelled = false)
    (hge : c.max_iterations ≤ c.current_iteration) :
    AssemblyControl.should_continue now c =
      (false,
        { c with
          current_iteration := (c.current_iteration + 1) % WORD
          cancel_flag := true }) := by
  simp only [AssemblyControl.should_continue, hwc, Bool.false_eq_true,
    if_false]
  rw [if_pos hge]

theorem should_continue_cases (c : AssemblyControl) (now : Nat)
    (hwc : c.was_cancelled = false)
    (hlt : c.current_iteration < c.max_iterations)
    (hW : c.max_iterations ≤ WORD - 1) :
    AssemblyControl.should_continue now c =
      (true, { c with current_iteration := c.current_iteration + 1 }) ∨
    AssemblyControl.should_continue now c =
      (false,
        { c with
          current_iteration := c.current_iteration + 1
          timeout_flag := true }) := by
  have hWpos : 0 < WORD := by norm_num [WORD]
  have hmod : (c.current_iteration + 1) % WORD = c.current_iteration + 1 :=
    Nat.mod_eq_of_lt (by omega)
  simp only [AssemblyControl.should_continue, hwc, Bool.false_eq_true,
    if_false, hmod]
  rw [if_neg (by omega)]
  split
  · split
    · right
      rfl
    · left
      rfl
  · left
    rfl

theorem pollCountTimes_cancelled (ts : List Nat) (c : AssemblyControl)
    (hwc : c.was_cancelled = true) : pollCountTimes ts c = 0 := by
  induction ts with
  | nil => rfl
  | cons now ts ih =>
    simp [pollCountTimes, should_continue_of_cancelled hwc, ih]

theorem pollCountTimes_le (ts : List Nat) (c : AssemblyControl)
    (hW : c.max_iterations ≤ WORD - 1) :
    pollCountTimes ts c ≤ c.max_iterations - c.current_iteration := by
  induction ts generalizing c with
  | nil => simp [pollCountTimes]
  | cons now ts ih =>
    by_cases hwc : c.was_cancelled = true
    · rw [pollCountTimes_cancelled (now :: ts) c hwc]
      omega
    · rw [Bool.not_eq_true] at hwc
      by_cases hge : c.max_iterations ≤ c.current_iteration
      · rw [pollCountTimes, should_continue_at_limit c now hwc hge]
        have hz : pollCountTimes ts
            { c with
              current_iteration := (c.current_iteration + 1) % WORD
              cancel_flag := true } = 0 :=
          pollCountTimes_cancelled ts _ (by simp [AssemblyControl.was_cancelled])
        simp [hz]
      · have hlt : c.current_iteration < c.max_iterations := by omega
        rcases should_continue_cases c now hwc hlt hW with h | h
        · rw [pollCountTimes, h]
          have hrec := ih { c with current_iteration := c.current_iteration + 1 } hW
          simp at hrec ⊢
          omega
        · rw [pollCountTimes, h]
          have hz : pollCountTimes ts
              { c with
                current_iteration := c.current_iteration + 1
                timeout_flag := true } = 0 :=
            pollCountTimes_cancelled ts _ (by simp [AssemblyControl.was_cancelled])
          simp [hz]

theorem pollState_add (now a b : Nat) (c : AssemblyControl) :
    pollState now (a + b) c = pollState now b (pollState now a c) := by
  induction a generalizing c with
  | zero =>
    rw [Nat.zero_add]
    rfl
  | succ a ih =>
    have h : a + 1 + b = (a + b) + 1 := by omega
    rw [h]
    show pollState now (a + b) (AssemblyControl.should_continue now c).2 =
      pollState now b (pollState now (a + 1) c)
    rw [ih]
    rfl

theorem pollState_running (now : Nat) (k : Nat) :
    ∀ c : AssemblyControl, c.cancel_flag = false → c.timeout_flag = false →
      c.panic_flag = false → c.start_time = now →
      c.current_iteration + k ≤ c.max_iterations →
      c.max_iterations ≤ WORD - 1 →
      pollState now k c =
        { c with current_iteration := c.current_iteration + k } := by
  induction k with
  | zero =>
    intro c h1 h2 h3 h4 h5 h6
    rfl
  | succ k ih =>
    intro c h1 h2 h3 h4 h5 h6
    have hlt : c.current_iteration < c.max_iterations := by omega
    show pollState now k (AssemblyControl.should_continue now c).2 =
      { c with current_iteration := c.current_iteration + (k + 1) }
    rw [should_continue_running c now h1 h2 h3 h4 hlt h6]
    have hrec := ih { c with current_iteration := c.current_iteration + 1 }
      h1 h2 h3 h4
      (by show c.current_iteration + 1 + k ≤ c.max_iterations; omega) h6
    rw [hrec]
    have harith : c.current_iteration + 1 + k = c.current_iteration + (k + 1) := by
      omega
    simp only [harith]

/-- C2: after `reset_for_operation(expected_size)`, the stored iteration
bound is exactly `max(expected_size * 10, 1000)` with the multiplication
saturating at the machine-word maximum; with no flag set by another thread,
a polling loop observes at most that many `true` results from
`should_continue` under any schedule of clock readings, and when the clock
stays at the reset instant the poll after the bound sets the cancel flag
and returns `false`. -/
theorem iteration_limit_bound (n now : Nat) (c : AssemblyControl) :
    ((c.reset_for_operation n now).max_iterations =
      max (min (n * 10) (WORD - 1)) 1000) ∧
    (∀ ts : List Nat,
      pollCountTimes ts (c.reset_for_operation n now) ≤
        max (min (n * 10) (WORD - 1)) 1000) ∧
    (pollState now (max (min (n * 10) (WORD - 1)) 1000 + 1)
        (c.reset_for_operation n now)).cancel_flag = true ∧
    (AssemblyControl.should_continue now
        (pollState now (max (min (n * 10) (WORD - 1)) 1000)
          (c.reset_for_operation n now))).1 = false := by
  have hW : (c.reset_for_operation n now).max_iterations ≤ WORD - 1 :=
    reset_bound_le n
  have hpoll : pollState now (max (min (n * 10) (WORD - 1)) 1000)
      (c.reset_for_operation n now) =
      { c.reset_for_operation n now with
        current_iteration := max (min (n * 10) (WORD - 1)) 1000 } := by
    have h := pollState_running now (max (min (n * 10) (WORD - 1)) 1000)
      (c.reset_for_operation n now) rfl rfl rfl rfl
      (by show 0 + max (min (n * 10) (WORD - 1)) 1000 ≤
            max (min (n * 10) (WORD - 1)) 1000
          omega) hW
    simpa [AssemblyControl.reset_for_operation] using h
  have hlimit := should_continue_at_limit
    { c.reset_for_operation n now with
      current_iteration := max (min (n * 10) (WORD - 1)) 1000 } now
    (by simp [AssemblyControl.was_cancelled, AssemblyControl.reset_for_operation])
    (le_refl _)
  refine ⟨rfl, fun ts => ?_, ?_, ?_⟩
  · have h := pollCountTimes_le ts (c.reset_for_operation n now) hW
    simpa [AssemblyControl.reset_for_operation] using h
  · rw [pollState_add now (max (min (n * 10) (WORD - 1)) 1000) 1
      (c.reset_for_operation n now), hpoll]
    show (AssemblyControl.should_continue now
      { c.reset_for_operation n now with
        current_iteration := max (min (n * 10) (WORD - 1)) 1000 }).2.cancel_flag = true
    rw [hlimit]
  · rw [hpoll, hlimit]

/-! ## Lemmas for watchdog stall detection -/

/-- Running the watchdog over a concatenation of wake lists composes. -/
theorem watchdog_run_append (cfg : WatchdogConfig) (ts us : List (Nat × Nat))
    (s : AssemblyControl × WatchTrack) :
    watchdog_run cfg (ts ++ us) s =
      watchdog_run cfg us (watchdog_run cfg ts s) := by
  induction ts generalizing s with
  | nil => rfl
  | cons t ts ih =>
    show watchdog_run cfg (ts ++ us) (watchdog_step cfg s.1 s.2 t.1 t.2) = _
    rw [ih]
    rfl

/-- A wake at most `stall_timeout_ms` past the recorded instant leaves
everything unchanged when the positive frozen heartbeat equals the
recorded one. -/
theorem watchdog_step_frozen_quiet (cfg : WatchdogConfig)
    (c : AssemblyControl) (h t0 now_ns now_ms : Nat) (hh : 0 < h)
    (hhb : c.heartbeat = h) (hstart : c.start_time ≠ 0)
    (hto : c.timeout_ms = 0) (hnow : now_ms ≤ t0 + cfg.stall_timeout_ms) :
    watchdog_step cfg c ⟨h, t0⟩ now_ns now_ms = (c, ⟨h, t0⟩) := by
  have h1 : ¬ (0 < c.timeout_ms ∧
      c.timeout_ms < wrapSub now_ns c.start_time / 1000000) := by
    rw [hto]
    simp
  have h2 : ¬ (0 < h ∧ cfg.stall_timeout_ms < now_ms - t0) := by
    intro hcon
    omega
  have h3 : ¬ (h = 0) := by omega
  simp [watchdog_step, hstart, h1, hhb, h2, h3]

/-- A wake strictly more than `stall_timeout_ms` past the recorded instant
sets the cancel flag. -/
theorem watchdog_step_frozen_fires (cfg : WatchdogConfig)
    (c : AssemblyControl) (h t0 now_ns now_ms : Nat) (hh : 0 < h)
    (hhb : c.heartbeat = h) (hstart : c.start_time ≠ 0)
    (hto : c.timeout_ms = 0) (hnow : t0 + cfg.stall_timeout_ms < now_ms) :
    watchdog_step cfg c ⟨h, t0⟩ now_ns now_ms =
      ({ c with cancel_flag := true }, ⟨h, now_ms⟩) := by
  have h1 : ¬ (0 < c.timeout_ms ∧
      c.timeout_ms < wrapSub now_ns c.start_time / 1000000) := by
    rw [hto]
    simp
  have h2 : 0 < h ∧ cfg.stall_timeout_ms < now_ms - t0 := ⟨hh, by omega⟩
  simp [watchdog_step, hstart, h1, hhb, h2]

/-- A whole run of wakes within the stall window changes nothing. -/
theorem watchdog_run_frozen_quiet (cfg : WatchdogConfig)
    (c : AssemblyControl) (h t0 : Nat) (ts : List (Nat × Nat)) (hh : 0 < h)
    (hhb : c.heartbeat = h) (hstart : c.start_time ≠ 0)
    (hto : c.timeout_ms = 0)
    (hts : ∀ t ∈ ts, t.2 ≤ t0 + cfg.stall_timeout_ms) :
    watchdog_run cfg ts (c, ⟨h, t0⟩) = (c, ⟨h, t0⟩) := by
  induction ts with
  | nil => rfl
  | cons t ts ih =>
    show watchdog_run cfg ts (watchdog_step cfg c ⟨h, t0⟩ t.1 t.2) = _
    rw [watchdog_step_frozen_quiet cfg c h t0 t.1 t.2 hh hhb hstart hto
      (hts t (List.mem_cons_self t ts))]
    exact ih fun u hu => hts u (List.mem_cons_of_mem t hu)

/-- C4 (amended): when the frozen heartbeat value is positive and has been
recorded by the watchdog at instant `t0` (which happens at most one check
interval after the freeze), a watchdog waking every `check_interval_ms`
sets the cancel flag within `stall_timeout_ms + check_interval_ms` of `t0`;
a heartbeat frozen at zero, by contrast, never triggers stall detection
(see the counterexample). -/
theorem watchdog_stall_detection_amended (cfg : WatchdogConfig)
    (c : AssemblyControl) (h t0 : Nat) (hh : 0 < h) (hhb : c.heartbeat = h)
    (hstart : c.start_time ≠ 0) (hto : c.timeout_ms = 0)
    (hint : 0 < cfg.check_interval_ms) :
    (watchdog_run cfg
        ((List.range (cfg.stall_timeout_ms / cfg.check_interval_ms + 1)).map
          fun i => (0, t0 + (i + 1) * cfg.check_interval_ms))
        (c, ⟨h, t0⟩)).1.cancel_flag = true ∧
    (cfg.stall_timeout_ms / cfg.check_interval_ms + 1) * cfg.check_interval_ms ≤
      cfg.stall_timeout_ms + cfg.check_interval_ms := by
  have hdm := Nat.div_add_mod cfg.stall_timeout_ms cfg.check_interval_ms
  have hmlt := Nat.mod_lt cfg.stall_timeout_ms hint
  have hdms : cfg.check_interval_ms * (cfg.stall_timeout_ms / cfg.check_interval_ms) =
      (cfg.stall_timeout_ms / cfg.check_interval_ms) * cfg.check_interval_ms := by
    ring
  rw [hdms] at hdm
  constructor
  · rw [List.range_succ, List.map_append,
      watchdog_run_append cfg _ _ (c, ⟨h, t0⟩)]
    rw [watchdog_run_frozen_quiet cfg c h t0 _ hh hhb hstart hto ?quiet]
    case quiet =>
      intro t ht
      simp only [List.mem_map, List.mem_range] at ht
      obtain ⟨i, hi, rfl⟩ := ht
      have : (i + 1) * cfg.check_interval_ms ≤
          (cfg.stall_timeout_ms / cfg.check_interval_ms) * cfg.check_interval_ms :=
        Nat.mul_le_mul_right _ (by omega)
      simp only
      omega
    show (watchdog_run cfg [(0, t0 + (cfg.stall_timeout_ms / cfg.check_interval_ms + 1) *
      cfg.check_interval_ms)] (c, ⟨h, t0⟩)).1.cancel_flag = true
    show (watchdog_step cfg c ⟨h, t0⟩ 0 (t0 + (cfg.stall_timeout_ms / cfg.check_interval_ms + 1) *
      cfg.check_interval_ms)).1.cancel_flag = true
    rw [watchdog_step_frozen_fires cfg c h t0 _ _ hh hhb hstart hto ?fire]
    case fire =>
      have : (cfg.stall_timeout_ms / cfg.check_interval_ms + 1) * cfg.check_interval_ms =
          (cfg.stall_timeout_ms / cfg.check_interval_ms) * cfg.check_interval_ms +
            cfg.check_interval_ms := by ring
      omega
  · have : (cfg.stall_timeout_ms / cfg.check_interval_ms + 1) * cfg.check_interval_ms =
        (cfg.stall_timeout_ms / cfg.check_interval_ms) * cfg.check_interval_ms +
          cfg.check_interval_ms := by ring
    omega

/-- Counterexample for C4: with the operation marked started
(`start_time = 1`), the timeout backup disabled, and the heartbeat never
incremented at all (still zero), ten watchdog wakes spanning 1000 ms —
far beyond `stall_timeout_ms + check_interval_ms = 150` — never set the
cancel flag: the stall branch requires `last_heartbeat > 0`, and the
zero branch re-records zero forever. -/
theorem watchdog_never_fires_on_zero_heartbeat :
    (watchdog_run ⟨100, 50, true⟩
        ((List.range 10).map fun i => (0, (i + 1) * 100))
        ({ AssemblyControl.new with start_time := 1, timeout_ms := 0 },
          ⟨0, 0⟩)).1.cancel_flag = false ∧
    50 + 100 < 1000 := by
  constructor
  · decide
  · norm_num

/-- Witness for C4 (amended) at `check_interval_ms = 100`,
`stall_timeout_ms = 50` and heartbeat frozen at `1`: a single wake fires. -/
theorem watchdog_stall_detection_amended_witness :
    (watchdog_run ⟨100, 50, true⟩
        ((List.range (50 / 100 + 1)).map fun i => (0, 0 + (i + 1) * 100))
        ({ AssemblyControl.new with
            heartbeat := 1, start_time := 1, timeout_ms := 0 },
          ⟨1, 0⟩)).1.cancel_flag = true ∧
    (50 / 100 + 1) * 100 ≤ 50 + 100 :=
  watchdog_stall_detection_amended ⟨100, 50, true⟩
    { AssemblyControl.new with heartbeat := 1, start_time := 1, timeout_ms := 0 }
    1 0 (by decide) rfl (by decide) rfl (by decide)
